import Mathlib

/-!
Verification of the resilient provider-selection and dispatch layer of the
ChatScrap gateway: a shallow embedding of ProviderManager (health tracking,
selection strategies) and G4FService (dispatch retries, error classification,
roster cache), with theorems checking the specification's claims.

Conventions of the embedding:
* JavaScript Date values are modelled as Nat timestamps supplied explicitly.
* JavaScript Map<string, T> is modelled as an insertion-ordered association
  list with in-place replacement on set, matching Map.set semantics.
* Optional JS values (undefined) are modelled with Option.
* JS string truthiness (the empty string is falsy) is modelled explicitly.
-/

/-- Remote provider status after G4FService.mapProviderStatus: the service
maps every remote status outside available/rate_limited to unavailable. -/
inductive ProviderStatus where
  | available
  | unavailable
  | rateLimited
  deriving DecidableEq, Repr

/-- The Provider shape from shared types: id, name, status, lastChecked, model. -/
structure Provider where
  id : String
  name : String
  status : ProviderStatus
  lastChecked : Nat
  model : Option String
  deriving DecidableEq, Repr

/-- ProviderHealthStatus from ProviderManager: the gateway's local view. -/
structure ProviderHealthStatus where
  providerId : String
  isHealthy : Bool
  lastChecked : Nat
  consecutiveFailures : Nat
  error : Option String
  deriving DecidableEq, Repr

/-- The providerHealth Map<string, ProviderHealthStatus>, as an
insertion-ordered association list. -/
abbrev HealthMap := List (String × ProviderHealthStatus)

/-- Map.get: first entry with the given key, if any. -/
def hmGet (m : HealthMap) (id : String) : Option ProviderHealthStatus :=
  match m with
  | [] => none
  | (k, v) :: rest => if k = id then some v else hmGet rest id

/-- Map.set: replace the value at an existing key in place, else append. -/
def hmSet (m : HealthMap) (id : String) (v : ProviderHealthStatus) : HealthMap :=
  match m with
  | [] => [(id, v)]
  | (k, w) :: rest =>
      if k = id then (id, v) :: rest else (k, w) :: hmSet rest id v

/-- ProviderManager state: the maxConsecutiveFailures option (default 3)
and the providerHealth map (initially empty). -/
structure ProviderManager where
  maxConsecutiveFailures : Nat
  providerHealth : HealthMap

/-- ProviderManager.updateProviderHealth: on success reset the failure count
to 0 and clear the error; on failure increment the prior count (0 when the
record is absent) and store the error. -/
def ProviderManager.updateProviderHealth (pm : ProviderManager) (providerId : String)
    (healthy : Bool) (error : Option String) (now : Nat) : ProviderManager :=
  let existing := hmGet pm.providerHealth providerId
  let updated : ProviderHealthStatus :=
    { providerId := providerId
      isHealthy := healthy
      lastChecked := now
      consecutiveFailures :=
        if healthy then 0
        else (match existing with
              | some e => e.consecutiveFailures
              | none => 0) + 1
      error := if healthy then none else error }
  { pm with providerHealth := hmSet pm.providerHealth providerId updated }

/-- ProviderManager.markProviderFailure. -/
def ProviderManager.markProviderFailure (pm : ProviderManager) (providerId : String)
    (error : Option String) (now : Nat) : ProviderManager :=
  pm.updateProviderHealth providerId false error now

/-- ProviderManager.markProviderSuccess. -/
def ProviderManager.markProviderSuccess (pm : ProviderManager) (providerId : String)
    (now : Nat) : ProviderManager :=
  pm.updateProviderHealth providerId true none now

/-- ProviderManager.isProviderHealthy: a provider with no record is assumed
healthy; otherwise it must be healthy and under the failure threshold. -/
def ProviderManager.isProviderHealthy (pm : ProviderManager) (providerId : String) : Bool :=
  match hmGet pm.providerHealth providerId with
  | none => true
  | some health =>
      health.isHealthy && decide (health.consecutiveFailures < pm.maxConsecutiveFailures)

/-- The roster-sync loop inside ProviderManager.getAvailableProviders: for
each provider of the fetched roster, record a success when its remote status
is available and a failure otherwise. -/
def ProviderManager.syncFromRoster (pm : ProviderManager) (roster : List Provider)
    (now : Nat) : ProviderManager :=
  roster.foldl
    (fun acc p => acc.updateProviderHealth p.id (p.status = ProviderStatus.available) none now)
    pm

/-- ProviderManager.getAvailableProviders on the successful-fetch path:
returns the fetched roster and performs the health sync as a side effect. -/
def ProviderManager.getAvailableProviders (pm : ProviderManager) (roster : List Provider)
    (now : Nat) : List Provider × ProviderManager :=
  (roster, pm.syncFromRoster roster now)

/-! ## Selection strategies -/

/-- A selection strategy call, as the ProviderSelectionStrategy interface:
one invocation mapping the provider list to a chosen provider or none.
Stateful strategies (round-robin) are captured at their current state. -/
def StrategyFn : Type := List Provider → Option Provider

/-- The available filter shared by all strategies. -/
def availableOf (providers : List Provider) : List Provider :=
  providers.filter (fun p => p.status = ProviderStatus.available)

/-- RoundRobinStrategy state: the private currentIndex cursor. -/
structure RoundRobinStrategy where
  currentIndex : Nat

/-- RoundRobinStrategy.selectProvider: pick available[cursor % length] and
advance the cursor to (cursor + 1) % length; none on an empty available set. -/
def RoundRobinStrategy.selectProvider (s : RoundRobinStrategy) (providers : List Provider) :
    Option Provider × RoundRobinStrategy :=
  let avail := availableOf providers
  if avail.length = 0 then (none, s)
  else
    (avail.get? (s.currentIndex % avail.length),
     { currentIndex := (s.currentIndex + 1) % avail.length })

/-- PriorityStrategy state: the configured priority order. -/
structure PriorityStrategy where
  priorityOrder : List String

/-- The default priority order from the PriorityStrategy constructor. -/
def defaultPriorityOrder : List String := ["bing", "chatgptai", "you", "freegpt"]

/-- The priority scan loop of PriorityStrategy.selectProvider: for each
priority id in order, return the first available provider with that id. -/
def priorityScan (order : List String) (avail : List Provider) : Option Provider :=
  match order with
  | [] => none
  | priorityId :: rest =>
      match avail.find? (fun p => p.id = priorityId) with
      | some p => some p
      | none => priorityScan rest avail

/-- PriorityStrategy.selectProvider: none on an empty available set, else the
highest-priority available provider, else the first available provider. -/
def PriorityStrategy.selectProvider (s : PriorityStrategy) (providers : List Provider) :
    Option Provider :=
  let avail := availableOf providers
  if avail.length = 0 then none
  else
    match priorityScan s.priorityOrder avail with
    | some p => some p
    | none => avail.head?

/-! ## ProviderManager orchestration -/

/-- ProviderManager.selectProvider: sync health from the fetched roster, try
the preferred provider (present, remotely available, locally healthy), else
filter to healthy providers and delegate to the strategy; returns the chosen
provider together with the updated manager state. -/
def ProviderManager.selectProvider (pm : ProviderManager) (strategy : StrategyFn)
    (roster : List Provider) (preferredProvider : Option String) (now : Nat) :
    Option Provider × ProviderManager :=
  let (providers, pm2) := pm.getAvailableProviders roster now
  let viaPreferred : Option Provider :=
    match preferredProvider with
    | none => none
    | some pid =>
        providers.find? (fun p =>
          p.id = pid ∧ p.status = ProviderStatus.available ∧ pm2.isProviderHealthy pid = true)
  match viaPreferred with
  | some preferred => (some preferred, pm2)
  | none =>
      let healthyProviders := providers.filter (fun p =>
        p.status = ProviderStatus.available && pm2.isProviderHealthy p.id)
      if healthyProviders.length = 0 then (none, pm2)
      else (strategy healthyProviders, pm2)

/-- The health score used by getFallbackProviders: the tracked consecutive
failure count, or 0 when no record exists. -/
def ProviderManager.failureScore (pm : ProviderManager) (id : String) : Nat :=
  match hmGet pm.providerHealth id with
  | some h => h.consecutiveFailures
  | none => 0

/-- Stable insertion of a provider into a list sorted by failure score:
a later element goes after existing elements with a smaller-or-equal score,
modelling the stable Array.prototype.sort comparator. -/
def insertByScore (score : Provider → Nat) (p : Provider) : List Provider → List Provider
  | [] => [p]
  | q :: rest =>
      if score q ≤ score p then q :: insertByScore score p rest else p :: q :: rest

/-- Stable sort by failure score (fewest failures first, ties keep order). -/
def sortByScore (score : Provider → Nat) : List Provider → List Provider
  | [] => []
  | p :: rest => insertByScore score p (sortByScore score rest)

/-- ProviderManager.getFallbackProviders: sync from the roster, keep the
non-excluded, remotely available, locally healthy providers, sorted by
consecutive-failure count ascending. -/
def ProviderManager.getFallbackProviders (pm : ProviderManager) (roster : List Provider)
    (excludeProviders : List String) (now : Nat) : List Provider × ProviderManager :=
  let (allProviders, pm2) := pm.getAvailableProviders roster now
  let kept := allProviders.filter (fun p =>
    !(excludeProviders.contains p.id) &&
    p.status = ProviderStatus.available &&
    pm2.isProviderHealthy p.id)
  (sortByScore (fun p => pm2.failureScore p.id) kept, pm2)

/-! ## G4FService: dispatch with retries -/

/-- JS truthiness of an optional string: undefined and the empty string are
falsy. -/
def jsTruthy : Option String → Bool
  | none => false
  | some s => decide (s ≠ "")

/-- The JS expression (v || fallback) on an optional string. -/
def jsOr (v : Option String) (fallback : String) : String :=
  if jsTruthy v then v.getD "" else fallback

/-- Character-list version of String.startsWith for the substring scan. -/
def charsStartWith : List Char → List Char → Bool
  | _, [] => true
  | [], _ :: _ => false
  | c :: cs, d :: ds => c = d && charsStartWith cs ds

/-- Character-list substring containment. -/
def charsContain : List Char → List Char → Bool
  | [], pat => pat.isEmpty
  | c :: rest, pat => charsStartWith (c :: rest) pat || charsContain rest pat

/-- JS String.prototype.includes. -/
def strIncludes (s pat : String) : Bool :=
  charsContain s.toList pat.toList

/-- Per-character lowercasing (ASCII, as Char.toLower), standing in for the
JS toLowerCase call; the patterns it feeds are all ASCII. -/
def strToLower (s : String) : String :=
  String.mk (s.toList.map Char.toLower)

/-- The fields of a caught JS error object that G4FService inspects:
error.message, error.code, error.response?.status, error.response?.data?.error. -/
structure JsError where
  message : Option String
  code : Option String
  responseStatus : Option Nat
  responseDataError : Option String
  deriving DecidableEq, Repr

/-- The error thrown inside the try block when the remote body has
success set to false: new Error(response.data.error || fallback text);
a plain Error has no response field. -/
def errorFromBody (bodyError : Option String) : JsError :=
  { message := some (jsOr bodyError "Unknown error from G4F service")
    code := none
    responseStatus := none
    responseDataError := none }

/-- G4FService.isRateLimitError: rate-limit text in the lowercased message or
response body error, or HTTP status 429. -/
def isRateLimitError (error : JsError) : Bool :=
  let message := (error.message.map strToLower).getD ""
  let responseData := (error.responseDataError.map strToLower).getD ""
  strIncludes message "rate limit" ||
  strIncludes message "too many requests" ||
  strIncludes responseData "rate limit" ||
  strIncludes responseData "too many requests" ||
  error.responseStatus = some 429

/-- G4FService.isConnectionError: connection-level error codes, or a
Network Error or timeout fragment in the (case-sensitive) message. -/
def isConnectionError (error : JsError) : Bool :=
  error.code = some "ECONNREFUSED" ||
  error.code = some "ENOTFOUND" ||
  error.code = some "ETIMEDOUT" ||
  (match error.message with
   | some m => strIncludes m "Network Error" || strIncludes m "timeout"
   | none => false)

/-- G4FService.getErrorMessage: the response body error field first, then the
error message, then the generic fallback (JS truthiness throughout). -/
def getErrorMessage (error : JsError) : String :=
  if jsTruthy error.responseDataError then error.responseDataError.getD ""
  else if jsTruthy error.message then error.message.getD ""
  else "Unknown error occurred"

/-- The G4FResponse body shape of the chat endpoint. -/
structure G4FResponse where
  success : Bool
  message : Option String
  error : Option String
  provider : Option String
  timestamp : Option String
  deriving DecidableEq, Repr

/-- Outcome of one underlying POST chat attempt: the promise resolves with a
body, or rejects with a transport error. -/
inductive AttemptOutcome where
  | resolved (body : G4FResponse)
  | rejected (error : JsError)
  deriving DecidableEq

/-- How the retry loop exits: an early return with a successful body, or
falling out with the last caught error. -/
inductive LoopExit where
  | success (body : G4FResponse)
  | failure (lastError : Option JsError)

/-- The fixed maxRetries field of G4FService (3 total attempts). -/
def maxRetries : Nat := 3

/-- The retry loop of G4FService.sendToProvider over the outcomes of the
underlying attempts, indexed by attempt number starting at 1; returns the
loop exit and the number of attempts actually performed. A caught error is
retried only when classified rate-limited or connection-level and the
attempt ceiling is not reached; any other caught error breaks the loop. -/
def sendLoop (outcomes : Nat → AttemptOutcome) :
    (remaining : Nat) → (attempt : Nat) → (lastError : Option JsError) → LoopExit × Nat
  | 0, attempt, lastError => (LoopExit.failure lastError, attempt - 1)
  | remaining + 1, attempt, _ =>
      match outcomes attempt with
      | AttemptOutcome.resolved body =>
          if body.success then (LoopExit.success body, attempt)
          else
            if isRateLimitError (errorFromBody body.error) && decide (attempt < maxRetries) then
              sendLoop outcomes remaining (attempt + 1) (some (errorFromBody body.error))
            else if isConnectionError (errorFromBody body.error) && decide (attempt < maxRetries) then
              sendLoop outcomes remaining (attempt + 1) (some (errorFromBody body.error))
            else (LoopExit.failure (some (errorFromBody body.error)), attempt)
      | AttemptOutcome.rejected e =>
          if isRateLimitError e && decide (attempt < maxRetries) then
            sendLoop outcomes remaining (attempt + 1) (some e)
          else if isConnectionError e && decide (attempt < maxRetries) then
            sendLoop outcomes remaining (attempt + 1) (some e)
          else (LoopExit.failure (some e), attempt)

/-- G4FService.sendToProvider: run the retry loop; on a successful attempt
return the remote body as is; otherwise build the failure result from the
last caught error (the none branch of the last error is unreachable because
maxRetries is positive). Also returns the number of attempts performed. -/
def sendToProvider (outcomes : Nat → AttemptOutcome) (provider : Option String)
    (failTimestamp : String) : G4FResponse × Nat :=
  match sendLoop outcomes maxRetries 1 none with
  | (LoopExit.success body, n) => (body, n)
  | (LoopExit.failure lastError, n) =>
      ({ success := false
         message := none
         error := some (match lastError with
                        | some e => getErrorMessage e
                        | none => "Unknown error occurred")
         provider := provider
         timestamp := some failTimestamp }, n)

/-! ## G4FService: roster fetch and cache -/

/-- Provider entry as delivered by the upstream providers endpoint. -/
structure RemoteProvider where
  id : String
  name : String
  status : String
  lastChecked : Nat
  model : Option String
  deriving DecidableEq, Repr

/-- G4FService.mapProviderStatus: available and rate_limited pass through,
everything else (unavailable, unknown, anything unrecognized) maps to
unavailable. -/
def mapProviderStatus (status : String) : ProviderStatus :=
  if status = "available" then ProviderStatus.available
  else if status = "rate_limited" then ProviderStatus.rateLimited
  else ProviderStatus.unavailable

/-- Outcome of the underlying GET providers call: a body with the success
flag set and a provider list, a body with the flag cleared (the code then
throws into its own catch), or a transport rejection (also caught). -/
inductive FetchOutcome where
  | resolvedSuccess (providers : List RemoteProvider)
  | resolvedFailure
  | rejected

/-- The providersCache and cacheExpiry fields of G4FService. -/
structure G4FServiceCache where
  providersCache : List Provider
  cacheExpiry : Nat
  deriving DecidableEq, Repr

/-- The fixed cacheTTL field: 5 minutes in milliseconds. -/
def cacheTTL : Nat := 5 * 60 * 1000

/-- G4FService.getAvailableProviders: serve from the cache when it is
non-empty and unexpired; otherwise attempt one live fetch, replacing the
cache on success, returning the stale cache (or an empty list when no cache
exists) on failure. The Bool records whether a live fetch was attempted. -/
def G4FServiceCache.getAvailableProviders (st : G4FServiceCache) (now : Nat)
    (fetch : FetchOutcome) : List Provider × G4FServiceCache × Bool :=
  if 0 < st.providersCache.length ∧ now < st.cacheExpiry then
    (st.providersCache, st, false)
  else
    match fetch with
    | FetchOutcome.resolvedSuccess ps =>
        let cache := ps.map (fun p =>
          { id := p.id, name := p.name, status := mapProviderStatus p.status,
            lastChecked := p.lastChecked, model := p.model : Provider })
        (cache, { providersCache := cache, cacheExpiry := now + cacheTTL }, true)
    | FetchOutcome.resolvedFailure =>
        if 0 < st.providersCache.length then (st.providersCache, st, true)
        else ([], st, true)
    | FetchOutcome.rejected =>
        if 0 < st.providersCache.length then (st.providersCache, st, true)
        else ([], st, true)

/-! ## Operation sequences over the health map -/

/-- A sequence of markProviderFailure calls on one provider: each element is
the error argument and the call time. -/
def ProviderManager.applyFailures (pm : ProviderManager) (providerId : String)
    (calls : List (Option String × Nat)) : ProviderManager :=
  calls.foldl (fun acc c => acc.markProviderFailure providerId c.1 c.2) pm

/-- The operations of ProviderManager that write the providerHealth map:
markProviderSuccess, markProviderFailure, the write done by
testProviderHealth after a probe, and the roster sync performed by
getAvailableProviders. -/
inductive HealthOp where
  | success (id : String) (now : Nat)
  | failure (id : String) (error : Option String) (now : Nat)
  | probe (id : String) (healthy : Bool) (error : Option String) (now : Nat)
  | rosterSync (roster : List Provider) (now : Nat)

/-- Apply one health-writing operation. -/
def ProviderManager.applyOp (pm : ProviderManager) : HealthOp → ProviderManager
  | HealthOp.success id now => pm.markProviderSuccess id now
  | HealthOp.failure id error now => pm.markProviderFailure id error now
  | HealthOp.probe id healthy error now => pm.updateProviderHealth id healthy error now
  | HealthOp.rosterSync roster now => pm.syncFromRoster roster now

/-- Apply a whole history of health-writing operations. -/
def ProviderManager.applyOps (pm : ProviderManager) (ops : List HealthOp) : ProviderManager :=
  ops.foldl ProviderManager.applyOp pm

/-- The record-level invariant of the providerHealth map: a healthy record
has a zero failure count and no error, an unhealthy one has at least one
failure. -/
def healthInvariant (m : HealthMap) : Prop :=
  ∀ kv ∈ m,
    (kv.2.isHealthy = true → kv.2.consecutiveFailures = 0 ∧ kv.2.error = none) ∧
    (kv.2.isHealthy = false → 1 ≤ kv.2.consecutiveFailures)

/-- The locally-usable condition exactly as the specification words it: no
local health record exists, or the record is healthy and under the
threshold. -/
def locallyUsable (pm : ProviderManager) (id : String) : Prop :=
  hmGet pm.providerHealth id = none ∨
  ∃ h, hmGet pm.providerHealth id = some h ∧ h.isHealthy = true ∧
    h.consecutiveFailures < pm.maxConsecutiveFailures

/-- The error under which an attempt outcome enters the catch block: none
for a successful body, the thrown body error for a success flag set to
false, the transport error for a rejection. -/
def attemptError : AttemptOutcome → Option JsError
  | AttemptOutcome.resolved body =>
      if body.success then none else some (errorFromBody body.error)
  | AttemptOutcome.rejected e => some e

/-! ## Concrete inputs used by witnesses and counterexamples -/

/-- A single remotely-available provider, as in the end-to-end scenery of
the specification. -/
def providerP1 : Provider :=
  { id := "p1", name := "P1", status := ProviderStatus.available, lastChecked := 0, model := none }

/-- A fresh ProviderManager with the default threshold 3 and no health data. -/
def pmInit : ProviderManager := { maxConsecutiveFailures := 3, providerHealth := [] }

/-- The default PriorityStrategy as a strategy call. -/
def priorityDefault : StrategyFn :=
  PriorityStrategy.selectProvider { priorityOrder := defaultPriorityOrder }

/-- The manager state of the end-to-end scenery after the first select and
three markProviderFailure calls on p1. -/
def pmAfterFailures : ProviderManager :=
  (((pmInit.selectProvider priorityDefault [providerP1] none 10).2.markProviderFailure
      "p1" (some "boom") 11).markProviderFailure "p1" (some "boom") 12).markProviderFailure
    "p1" (some "boom") 13

/-- Available provider A. -/
def providerA : Provider :=
  { id := "a", name := "A", status := ProviderStatus.available, lastChecked := 0, model := none }

/-- Available provider B. -/
def providerB : Provider :=
  { id := "b", name := "B", status := ProviderStatus.available, lastChecked := 0, model := none }

/-- Available provider C. -/
def providerC : Provider :=
  { id := "c", name := "C", status := ProviderStatus.available, lastChecked := 0, model := none }

/-- A transport rejection carrying HTTP status 429. -/
def rateLimited429 : JsError :=
  { message := none, code := none, responseStatus := some 429, responseDataError := none }

/-- A successful remote chat body. -/
def okBody : G4FResponse :=
  { success := true, message := some "hi", error := none,
    provider := some "bing", timestamp := some "t0" }

/-- A remote chat body with the success flag cleared and a non-retryable
error text. -/
def badBody : G4FResponse :=
  { success := false, message := none, error := some "bad request",
    provider := none, timestamp := none }

/-- Attempt outcomes: two 429 rejections, then a success. -/
def outcomesRetryTwice : Nat → AttemptOutcome :=
  fun n => if n ≤ 2 then AttemptOutcome.rejected rateLimited429
           else AttemptOutcome.resolved okBody

/-- Attempt outcomes: every attempt resolves with the non-retryable body. -/
def outcomesTerminal : Nat → AttemptOutcome :=
  fun _ => AttemptOutcome.resolved badBody

/-- An empty service cache (fresh G4FService). -/
def freshCache : G4FServiceCache := { providersCache := [], cacheExpiry := 0 }

/-- The service cache after a successful fetch at time 0 whose roster is
empty. -/
def cacheAfterEmptyFetch : G4FServiceCache :=
  (freshCache.getAvailableProviders 0 (FetchOutcome.resolvedSuccess [])).2.1


/-! ## Helper lemmas: the health map -/

theorem hmGet_hmSet_self (m : HealthMap) (id : String) (v : ProviderHealthStatus) :
    hmGet (hmSet m id v) id = some v := by
  induction m with
  | nil => simp [hmGet, hmSet]
  | cons kv rest ih =>
      obtain ⟨k, w⟩ := kv
      by_cases hk : k = id
      · simp [hmGet, hmSet, hk]
      · simp [hmGet, hmSet, hk, ih]

theorem hmGet_hmSet_ne (m : HealthMap) (id k : String) (v : ProviderHealthStatus)
    (h : k ≠ id) : hmGet (hmSet m id v) k = hmGet m k := by
  induction m with
  | nil => simp [hmGet, hmSet, Ne.symm h]
  | cons kv rest ih =>
      obtain ⟨k0, w⟩ := kv
      by_cases hk : k0 = id
      · subst hk
        simp [hmGet, hmSet, Ne.symm h]
      · simp only [hmSet, hk, if_false, hmGet]
        by_cases hkk : k0 = k
        · simp [hkk]
        · simp [hkk, ih]

theorem mem_hmSet (m : HealthMap) (id : String) (v : ProviderHealthStatus) (kv : String × ProviderHealthStatus)
    (h : kv ∈ hmSet m id v) : kv = (id, v) ∨ kv ∈ m := by
  induction m with
  | nil =>
      simp [hmSet] at h
      exact Or.inl h
  | cons kw rest ih =>
      obtain ⟨k0, w⟩ := kw
      by_cases hk : k0 = id
      · simp [hmSet, hk] at h
        rcases h with h | h
        · exact Or.inl h
        · exact Or.inr (List.mem_cons_of_mem _ h)
      · simp [hmSet, hk] at h
        rcases h with h | h
        · exact Or.inr (by simp [h])
        · rcases ih h with h2 | h2
          · exact Or.inl h2
          · exact Or.inr (List.mem_cons_of_mem _ h2)

/-- The consecutive-failure count seen for a provider, 0 for a missing
record: the (health?.consecutiveFailures || 0) pattern. -/
theorem failureScore_eq (pm : ProviderManager) (id : String) :
    pm.failureScore id =
      (match hmGet pm.providerHealth id with
       | some h => h.consecutiveFailures
       | none => 0) := rfl

theorem updateProviderHealth_get_self (pm : ProviderManager) (id : String)
    (healthy : Bool) (error : Option String) (now : Nat) :
    hmGet (pm.updateProviderHealth id healthy error now).providerHealth id =
      some { providerId := id
             isHealthy := healthy
             lastChecked := now
             consecutiveFailures := if healthy then 0 else pm.failureScore id + 1
             error := if healthy then none else error } := by
  cases hx : hmGet pm.providerHealth id <;>
    simp [ProviderManager.updateProviderHealth, hmGet_hmSet_self,
      ProviderManager.failureScore, hx]

theorem updateProviderHealth_get_ne (pm : ProviderManager) (id k : String)
    (healthy : Bool) (error : Option String) (now : Nat) (h : k ≠ id) :
    hmGet (pm.updateProviderHealth id healthy error now).providerHealth k =
      hmGet pm.providerHealth k := by
  unfold ProviderManager.updateProviderHealth
  simp only [hmGet_hmSet_ne _ _ _ _ h]

theorem updateProviderHealth_max (pm : ProviderManager) (id : String)
    (healthy : Bool) (error : Option String) (now : Nat) :
    (pm.updateProviderHealth id healthy error now).maxConsecutiveFailures =
      pm.maxConsecutiveFailures := rfl

/-! ## Helper lemmas: the roster sync -/

theorem syncFromRoster_nil (pm : ProviderManager) (now : Nat) :
    pm.syncFromRoster [] now = pm := rfl

theorem syncFromRoster_cons (pm : ProviderManager) (q : Provider) (rest : List Provider)
    (now : Nat) :
    pm.syncFromRoster (q :: rest) now =
      (pm.updateProviderHealth q.id (q.status = ProviderStatus.available) none now).syncFromRoster
        rest now := rfl

theorem syncFromRoster_max (pm : ProviderManager) (roster : List Provider) (now : Nat) :
    (pm.syncFromRoster roster now).maxConsecutiveFailures = pm.maxConsecutiveFailures := by
  induction roster generalizing pm with
  | nil => rfl
  | cons q rest ih => rw [syncFromRoster_cons, ih, updateProviderHealth_max]

theorem syncFromRoster_get_of_not_mem (pm : ProviderManager) (roster : List Provider)
    (now : Nat) (id : String) (h : ∀ q ∈ roster, q.id ≠ id) :
    hmGet (pm.syncFromRoster roster now).providerHealth id = hmGet pm.providerHealth id := by
  induction roster generalizing pm with
  | nil => rfl
  | cons q rest ih =>
      rw [syncFromRoster_cons, ih _ (fun r hr => h r (List.mem_cons_of_mem _ hr))]
      exact updateProviderHealth_get_ne _ _ _ _ _ _ (fun he => h q (List.mem_cons_self _ _) he.symm)

/-! ## Helper lemmas: failure and success bookkeeping -/

theorem markProviderFailure_get_self (pm : ProviderManager) (id : String)
    (error : Option String) (now : Nat) :
    hmGet (pm.markProviderFailure id error now).providerHealth id =
      some { providerId := id, isHealthy := false, lastChecked := now,
             consecutiveFailures := pm.failureScore id + 1, error := error } := by
  have h := updateProviderHealth_get_self pm id false error now
  simpa [ProviderManager.markProviderFailure] using h

theorem markProviderSuccess_get_self (pm : ProviderManager) (id : String) (now : Nat) :
    hmGet (pm.markProviderSuccess id now).providerHealth id =
      some { providerId := id, isHealthy := true, lastChecked := now,
             consecutiveFailures := 0, error := none } := by
  have h := updateProviderHealth_get_self pm id true none now
  simpa [ProviderManager.markProviderSuccess] using h

theorem markProviderFailure_failureScore (pm : ProviderManager) (id : String)
    (error : Option String) (now : Nat) :
    (pm.markProviderFailure id error now).failureScore id = pm.failureScore id + 1 := by
  rw [ProviderManager.failureScore, markProviderFailure_get_self]

theorem applyFailures_get (id : String) :
    ∀ (calls : List (Option String × Nat)) (pm : ProviderManager) (hne : calls ≠ []),
      hmGet (pm.applyFailures id calls).providerHealth id =
        some { providerId := id, isHealthy := false,
               lastChecked := (calls.getLast hne).2,
               consecutiveFailures := pm.failureScore id + calls.length,
               error := (calls.getLast hne).1 }
  | [], _, hne => absurd rfl hne
  | [c], pm, _ => by
      simpa [ProviderManager.applyFailures] using markProviderFailure_get_self pm id c.1 c.2
  | c :: c2 :: rest, pm, _ => by
      have hne2 : c2 :: rest ≠ [] := by simp
      have step : pm.applyFailures id (c :: c2 :: rest) =
          (pm.markProviderFailure id c.1 c.2).applyFailures id (c2 :: rest) := rfl
      rw [step, applyFailures_get id (c2 :: rest) _ hne2,
        markProviderFailure_failureScore]
      simp [List.getLast_cons hne2, List.length_cons]
      omega

/-- C2: with no intervening success, n markProviderFailure calls on a
provider (starting from an absent record or one with count 0) leave its
record with consecutiveFailures = n, isHealthy false and the last given
error stored; one markProviderSuccess sets isHealthy true, count exactly 0
and clears the error; and a failure always moves the count from f to f + 1
(the count is a Nat, so non-negative, and only a success resets it). -/
theorem claim_C2 :
    (∀ (pm : ProviderManager) (id : String) (calls : List (Option String × Nat)),
       (hmGet pm.providerHealth id = none ∨
         ∃ h, hmGet pm.providerHealth id = some h ∧ h.consecutiveFailures = 0) →
       ∀ hne : calls ≠ [],
       hmGet (pm.applyFailures id calls).providerHealth id =
         some { providerId := id, isHealthy := false,
                lastChecked := (calls.getLast hne).2,
                consecutiveFailures := calls.length,
                error := (calls.getLast hne).1 }) ∧
    (∀ (pm : ProviderManager) (id : String) (now : Nat),
       hmGet (pm.markProviderSuccess id now).providerHealth id =
         some { providerId := id, isHealthy := true, lastChecked := now,
                consecutiveFailures := 0, error := none }) ∧
    (∀ (pm : ProviderManager) (id : String) (error : Option String) (now : Nat),
       (pm.markProviderFailure id error now).failureScore id = pm.failureScore id + 1) := by
  refine ⟨?_, ?_, ?_⟩
  · intro pm id calls hstart hne
    have hscore : pm.failureScore id = 0 := by
      rcases hstart with h0 | ⟨h, hh, hc⟩
      · rw [ProviderManager.failureScore, h0]
      · rw [ProviderManager.failureScore, hh]
        exact hc
    have h := applyFailures_get id calls pm hne
    rw [hscore] at h
    simpa using h
  · exact markProviderSuccess_get_self
  · exact markProviderFailure_failureScore

/-- Witness for C2: two failures then a success on a fresh manager. -/
theorem claim_C2_witness :
    hmGet (pmInit.applyFailures "p1" [(some "x", 5), (some "y", 6)]).providerHealth "p1" =
      some { providerId := "p1", isHealthy := false, lastChecked := 6,
             consecutiveFailures := 2, error := some "y" } ∧
    hmGet ((pmInit.applyFailures "p1" [(some "x", 5), (some "y", 6)]).markProviderSuccess
        "p1" 7).providerHealth "p1" =
      some { providerId := "p1", isHealthy := true, lastChecked := 7,
             consecutiveFailures := 0, error := none } := by
  constructor
  · have h := claim_C2.1 pmInit "p1" [(some "x", 5), (some "y", 6)] (Or.inl rfl) (by simp)
    simpa using h
  · exact claim_C2.2.1 _ "p1" 7

/-! ## Helper lemmas: the health invariant -/

theorem healthInvariant_hmSet (m : HealthMap) (id : String) (v : ProviderHealthStatus)
    (hm : healthInvariant m)
    (hv : (v.isHealthy = true → v.consecutiveFailures = 0 ∧ v.error = none) ∧
          (v.isHealthy = false → 1 ≤ v.consecutiveFailures)) :
    healthInvariant (hmSet m id v) := by
  intro kv hkv
  rcases mem_hmSet _ _ _ _ hkv with h | hmem
  · rw [h]
    exact hv
  · exact hm kv hmem

theorem healthInvariant_update (pm : ProviderManager) (id : String) (healthy : Bool)
    (error : Option String) (now : Nat) (hinv : healthInvariant pm.providerHealth) :
    healthInvariant (pm.updateProviderHealth id healthy error now).providerHealth := by
  refine healthInvariant_hmSet _ _ _ hinv ?_
  cases healthy <;> simp

theorem healthInvariant_sync (roster : List Provider) :
    ∀ (pm : ProviderManager) (now : Nat), healthInvariant pm.providerHealth →
      healthInvariant (pm.syncFromRoster roster now).providerHealth := by
  induction roster with
  | nil => intro pm now h; exact h
  | cons q rest ih =>
      intro pm now h
      rw [syncFromRoster_cons]
      exact ih _ now (healthInvariant_update _ _ _ _ _ h)

theorem healthInvariant_applyOp (pm : ProviderManager) (op : HealthOp)
    (hinv : healthInvariant pm.providerHealth) :
    healthInvariant (pm.applyOp op).providerHealth := by
  cases op with
  | success id now => exact healthInvariant_update _ _ _ _ _ hinv
  | failure id error now => exact healthInvariant_update _ _ _ _ _ hinv
  | probe id healthy error now => exact healthInvariant_update _ _ _ _ _ hinv
  | rosterSync roster now => exact healthInvariant_sync _ _ _ hinv

/-- C10: every record of the providerHealth map satisfies, after each
operation that writes the map (markProviderSuccess, markProviderFailure,
the testProviderHealth write, the getAvailableProviders roster sync):
healthy implies zero failures and no stored error, unhealthy implies at
least one failure. This holds step by step from any invariant-satisfying
state and along every history from the initial empty map. -/
theorem claim_C10 :
    (∀ (pm : ProviderManager) (op : HealthOp), healthInvariant pm.providerHealth →
       healthInvariant (pm.applyOp op).providerHealth) ∧
    (∀ (maxF : Nat) (ops : List HealthOp),
       healthInvariant (ProviderManager.applyOps
         { maxConsecutiveFailures := maxF, providerHealth := [] } ops).providerHealth) := by
  constructor
  · exact healthInvariant_applyOp
  · intro maxF ops
    have hgen : ∀ (l : List HealthOp) (pm : ProviderManager),
        healthInvariant pm.providerHealth → healthInvariant (pm.applyOps l).providerHealth := by
      intro l
      induction l with
      | nil => intro pm h; exact h
      | cons op rest ih =>
          intro pm h
          exact ih _ (healthInvariant_applyOp pm op h)
    exact hgen ops _ (by intro kv hkv; cases hkv)

/-- Witness for C10: a failure then a roster sync on a fresh manager keeps
the invariant. -/
theorem claim_C10_witness :
    healthInvariant (ProviderManager.applyOp
      { maxConsecutiveFailures := 3, providerHealth := [] }
      (HealthOp.failure "p1" (some "boom") 4)).providerHealth ∧
    healthInvariant (ProviderManager.applyOps
      { maxConsecutiveFailures := 3, providerHealth := [] }
      [HealthOp.failure "p1" (some "boom") 4,
       HealthOp.rosterSync [providerP1] 5]).providerHealth := by
  constructor
  · exact claim_C10.1 _ _ (by intro kv hkv; cases hkv)
  · exact claim_C10.2 3 _

/-! ## Helper lemmas: sync record contents -/

theorem updateProviderHealth_failureScore_ne (pm : ProviderManager) (id k : String)
    (healthy : Bool) (error : Option String) (now : Nat) (h : k ≠ id) :
    (pm.updateProviderHealth id healthy error now).failureScore k = pm.failureScore k := by
  simp [ProviderManager.failureScore, updateProviderHealth_get_ne _ _ _ _ _ _ h]

theorem syncFromRoster_get_mem :
    ∀ (roster : List Provider) (pm : ProviderManager) (now : Nat),
      (roster.map (fun p => p.id)).Nodup →
      ∀ p ∈ roster,
        hmGet (pm.syncFromRoster roster now).providerHealth p.id =
          some { providerId := p.id
                 isHealthy := decide (p.status = ProviderStatus.available)
                 lastChecked := now
                 consecutiveFailures :=
                   if p.status = ProviderStatus.available then 0
                   else pm.failureScore p.id + 1
                 error := none } := by
  intro roster
  induction roster with
  | nil => intro pm now _ p hp; cases hp
  | cons q rest ih =>
      intro pm now hnd p hp
      have hnd' : (∀ x ∈ rest, ¬x.id = q.id) ∧ (rest.map (fun p => p.id)).Nodup := by
        simpa using hnd
      rcases List.mem_cons.mp hp with rfl | hmem
      · rw [syncFromRoster_cons,
          syncFromRoster_get_of_not_mem _ _ _ _ (fun r hr => hnd'.1 r hr),
          updateProviderHealth_get_self]
        by_cases hav : p.status = ProviderStatus.available <;> simp [hav]
      · rw [syncFromRoster_cons, ih _ now hnd'.2 p hmem,
          updateProviderHealth_failureScore_ne _ _ _ _ _ _ (hnd'.1 p hmem)]

theorem selectProvider_snd (pm : ProviderManager) (strategy : StrategyFn)
    (roster : List Provider) (pref : Option String) (now : Nat) :
    (pm.selectProvider strategy roster pref now).2 = pm.syncFromRoster roster now := by
  unfold ProviderManager.selectProvider
  simp only [ProviderManager.getAvailableProviders]
  split
  · rfl
  · split <;> rfl

theorem getFallbackProviders_snd (pm : ProviderManager) (roster : List Provider)
    (excl : List String) (now : Nat) :
    (pm.getFallbackProviders roster excl now).2 = pm.syncFromRoster roster now := rfl

/-- C3: getAvailableProviders rewrites the local record of every roster
provider from its remote status: a remotely-available provider is recorded
as a success (healthy, zero failures, no error) whatever its history, any
other status as one more failure; and both selectProvider and
getFallbackProviders perform exactly this sync first, so failure history
recorded by markProviderFailure does not survive a roster read for a
remotely-available provider. -/
theorem claim_C3 :
    (∀ (pm : ProviderManager) (roster : List Provider) (now : Nat),
       (roster.map (fun p => p.id)).Nodup →
       ∀ p ∈ roster,
         (p.status = ProviderStatus.available →
            hmGet (pm.getAvailableProviders roster now).2.providerHealth p.id =
              some { providerId := p.id, isHealthy := true, lastChecked := now,
                     consecutiveFailures := 0, error := none }) ∧
         (p.status ≠ ProviderStatus.available →
            hmGet (pm.getAvailableProviders roster now).2.providerHealth p.id =
              some { providerId := p.id, isHealthy := false, lastChecked := now,
                     consecutiveFailures := pm.failureScore p.id + 1, error := none })) ∧
    (∀ (pm : ProviderManager) (strategy : StrategyFn) (roster : List Provider)
       (pref : Option String) (now : Nat),
       (pm.selectProvider strategy roster pref now).2 = (pm.getAvailableProviders roster now).2) ∧
    (∀ (pm : ProviderManager) (roster : List Provider) (excl : List String) (now : Nat),
       (pm.getFallbackProviders roster excl now).2 = (pm.getAvailableProviders roster now).2) := by
  refine ⟨?_, ?_, ?_⟩
  · intro pm roster now hnd p hp
    have h := syncFromRoster_get_mem roster pm now hnd p hp
    constructor
    · intro hav
      rw [show (pm.getAvailableProviders roster now).2 = pm.syncFromRoster roster now from rfl, h]
      simp [hav]
    · intro hav
      rw [show (pm.getAvailableProviders roster now).2 = pm.syncFromRoster roster now from rfl, h]
      simp [hav]
  · intro pm strategy roster pref now
    exact selectProvider_snd pm strategy roster pref now
  · intro pm roster excl now
    exact getFallbackProviders_snd pm roster excl now

/-- Witness for C3: a provider with two recorded failures is reset to a
healthy record by a roster read reporting it available. -/
theorem claim_C3_witness :
    hmGet (((pmInit.markProviderFailure "p1" (some "boom") 1).markProviderFailure
        "p1" (some "boom") 2).getAvailableProviders [providerP1] 3).2.providerHealth "p1" =
      some { providerId := "p1", isHealthy := true, lastChecked := 3,
             consecutiveFailures := 0, error := none } := by
  have h := (claim_C3.1 ((pmInit.markProviderFailure "p1" (some "boom") 1).markProviderFailure
      "p1" (some "boom") 2) [providerP1] 3 (by simp) providerP1 (by simp)).1 rfl
  simpa using h

/-! ## Helper lemmas: what selectProvider can return -/

theorem selectProvider_result (pm : ProviderManager) (strategy : StrategyFn)
    (hs : ∀ l p, strategy l = some p → p ∈ l)
    (roster : List Provider) (pref : Option String) (now : Nat) (p : Provider)
    (h : (pm.selectProvider strategy roster pref now).1 = some p) :
    p.status = ProviderStatus.available ∧
      (pm.syncFromRoster roster now).isProviderHealthy p.id = true := by
  unfold ProviderManager.selectProvider at h
  simp only [ProviderManager.getAvailableProviders] at h
  rcases pref with _ | pid
  · simp only at h
    split at h
    · simp at h
    · have hp := hs _ _ h
      have hb := (List.mem_filter.mp hp).2
      simp at hb
      exact ⟨hb.1, hb.2⟩
  · dsimp only at h
    cases hf : List.find? (fun p =>
        decide (p.id = pid ∧ p.status = ProviderStatus.available ∧
          (pm.syncFromRoster roster now).isProviderHealthy pid = true)) roster with
    | some q =>
        rw [hf] at h
        have hq' : q.id = pid ∧ q.status = ProviderStatus.available ∧
            (pm.syncFromRoster roster now).isProviderHealthy pid = true := by
          simpa using List.find?_some hf
        have hqp : q = p := by simpa using h
        subst hqp
        refine ⟨hq'.2.1, ?_⟩
        rw [hq'.1]
        exact hq'.2.2
    | none =>
        rw [hf] at h
        simp only at h
        split at h
        · simp at h
        · have hp := hs _ _ h
          have hb := (List.mem_filter.mp hp).2
          simp at hb
          exact ⟨hb.1, hb.2⟩

/-- C1 (amended): any provider returned by selectProvider (for any strategy
that picks from its input) is remotely available and locally healthy in the
manager state the call leaves behind; but because the roster sync performed
inside selectProvider records a success for every remotely-available roster
provider, markProviderFailure history does not persist: in the end-to-end
scenery with roster [p1 available] and threshold 3, selectProvider returns
p1 on a fresh manager, still returns p1 after three markProviderFailure
calls, and returns p1 after markProviderSuccess. -/
theorem claim_C1 :
    (∀ (strategy : StrategyFn), (∀ l q, strategy l = some q → q ∈ l) →
       ∀ (pm : ProviderManager) (roster : List Provider) (pref : Option String)
         (now : Nat) (p : Provider),
         (pm.selectProvider strategy roster pref now).1 = some p →
         p.status = ProviderStatus.available ∧
           (pm.selectProvider strategy roster pref now).2.isProviderHealthy p.id = true) ∧
    ((pmInit.selectProvider priorityDefault [providerP1] none 10).1 = some providerP1 ∧
     (pmAfterFailures.selectProvider priorityDefault [providerP1] none 14).1 = some providerP1 ∧
     ((pmAfterFailures.markProviderSuccess "p1" 15).selectProvider priorityDefault
        [providerP1] none 16).1 = some providerP1) := by
  constructor
  · intro strategy hs pm roster pref now p h
    have hr := selectProvider_result pm strategy hs roster pref now p h
    rw [selectProvider_snd]
    exact hr
  · exact ⟨by decide, by decide, by decide⟩

/-- Counterexample to C1 as stated: after three markProviderFailure calls
on p1 (threshold 3, record at 3 consecutive failures, no success marked),
selectProvider with the default strategy still returns p1 rather than
none, because the roster sync reset the record first. -/
theorem claim_C1_counterexample :
    pmAfterFailures.failureScore "p1" = 3 ∧
    pmAfterFailures.maxConsecutiveFailures = 3 ∧
    pmAfterFailures.isProviderHealthy "p1" = false ∧
    (pmAfterFailures.selectProvider priorityDefault [providerP1] none 14).1 = some providerP1 ∧
    ¬((pmAfterFailures.selectProvider priorityDefault [providerP1] none 14).1 = none) := by
  decide

/-- Witness for C1: the general part applied to the head-taking strategy on
the one-provider roster. -/
theorem claim_C1_witness :
    providerP1.status = ProviderStatus.available ∧
    (pmInit.selectProvider (fun l => l.head?) [providerP1] none 3).2.isProviderHealthy
      "p1" = true := by
  have hs : ∀ (l : List Provider) (q : Provider), l.head? = some q → q ∈ l := by
    intro l q hq
    cases l with
    | nil => cases hq
    | cons a t =>
        cases hq
        exact List.mem_cons_self _ _
  have h := claim_C1.1 (fun l => l.head?) hs pmInit [providerP1] none 3 providerP1 (by decide)
  exact ⟨h.1, by simpa using h.2⟩

/-! ## C7: the preferred-provider path -/

theorem locallyUsable_iff (pm : ProviderManager) (id : String) :
    locallyUsable pm id ↔ pm.isProviderHealthy id = true := by
  unfold locallyUsable ProviderManager.isProviderHealthy
  cases hx : hmGet pm.providerHealth id with
  | none => simp
  | some h => simp [hx]

/-- C7: selectProvider(preferredId) returns the preferred provider
directly, for every strategy (so without consulting it), exactly when the
preferred id is present in the roster with remote status available and is
locally usable (no record, or healthy and under the threshold) in the
health map as it stands after the roster sync the call performs first;
when that condition fails the call returns the strategy result over the
usable providers (or none when there are none) and never errors. -/
theorem claim_C7 :
    ∀ (pm : ProviderManager) (strategy : StrategyFn) (roster : List Provider)
      (pid : String) (now : Nat),
      ((∃ p ∈ roster, p.id = pid ∧ p.status = ProviderStatus.available) ∧
          locallyUsable (pm.syncFromRoster roster now) pid →
        ∃ p, p.id = pid ∧ p.status = ProviderStatus.available ∧
          ∀ g : StrategyFn, (pm.selectProvider g roster (some pid) now).1 = some p) ∧
      (¬((∃ p ∈ roster, p.id = pid ∧ p.status = ProviderStatus.available) ∧
          locallyUsable (pm.syncFromRoster roster now) pid) →
        (pm.selectProvider strategy roster (some pid) now).1 =
          (if (roster.filter (fun p => p.status = ProviderStatus.available &&
                (pm.syncFromRoster roster now).isProviderHealthy p.id)).length = 0
           then none
           else strategy (roster.filter (fun p => p.status = ProviderStatus.available &&
                (pm.syncFromRoster roster now).isProviderHealthy p.id)))) := by
  intro pm strategy roster pid now
  constructor
  · rintro ⟨⟨p0, hp0m, hp0id, hp0av⟩, husable⟩
    have hh : (pm.syncFromRoster roster now).isProviderHealthy pid = true :=
      (locallyUsable_iff _ _).mp husable
    have hex : (roster.find? (fun p =>
        decide (p.id = pid ∧ p.status = ProviderStatus.available ∧
          (pm.syncFromRoster roster now).isProviderHealthy pid = true))).isSome := by
      rw [List.find?_isSome]
      exact ⟨p0, hp0m, by simp [hp0id, hp0av, hh]⟩
    obtain ⟨q, hq⟩ := Option.isSome_iff_exists.mp hex
    have hq' : q.id = pid ∧ q.status = ProviderStatus.available ∧
        (pm.syncFromRoster roster now).isProviderHealthy pid = true := by
      simpa using List.find?_some hq
    refine ⟨q, hq'.1, hq'.2.1, ?_⟩
    intro g
    unfold ProviderManager.selectProvider
    simp only [ProviderManager.getAvailableProviders]
    rw [hq]
  · intro hcond
    have hnone : roster.find? (fun p =>
        decide (p.id = pid ∧ p.status = ProviderStatus.available ∧
          (pm.syncFromRoster roster now).isProviderHealthy pid = true)) = none := by
      rw [List.find?_eq_none]
      intro x hx
      simp only [decide_eq_true_eq, not_and]
      intro hid hav hh
      exact hcond ⟨⟨x, hx, hid, hav⟩, (locallyUsable_iff _ _).mpr hh⟩
    unfold ProviderManager.selectProvider
    simp only [ProviderManager.getAvailableProviders]
    rw [hnone]
    split
    · rename_i heq
      cases heq
    · split <;> rfl

/-- Witness for C7: the preferred path on a fresh manager and the
one-provider roster. -/
theorem claim_C7_witness :
    ∃ p, p.id = "p1" ∧ p.status = ProviderStatus.available ∧
      ∀ g : StrategyFn, (pmInit.selectProvider g [providerP1] (some "p1") 5).1 = some p := by
  refine (claim_C7 pmInit priorityDefault [providerP1] "p1" 5).1
    ⟨⟨providerP1, by simp, rfl, rfl⟩, ?_⟩
  exact (locallyUsable_iff _ _).mpr (by decide)

/-! ## C8: the priority strategy -/

theorem priorityScan_eq_spec :
    ∀ (order : List String) (avail : List Provider),
      priorityScan order avail =
        (match order.find? (fun pid => avail.any (fun p => p.id = pid)) with
         | some pid => avail.find? (fun p => p.id = pid)
         | none => none) := by
  intro order
  induction order with
  | nil => intro avail; rfl
  | cons priorityId rest ih =>
      intro avail
      cases hf : avail.find? (fun p => decide (p.id = priorityId)) with
      | some p =>
          have hany : avail.any (fun p => decide (p.id = priorityId)) = true := by
            rw [List.any_eq_true]
            exact ⟨p, List.mem_of_find?_eq_some hf, by simpa using List.find?_some hf⟩
          rw [show priorityScan (priorityId :: rest) avail =
              (match avail.find? (fun p => decide (p.id = priorityId)) with
               | some p => some p
               | none => priorityScan rest avail) from rfl, hf,
            List.find?_cons_of_pos _ (by simpa using hany)]
          exact hf.symm
      | none =>
          have hany : avail.any (fun p => decide (p.id = priorityId)) = false := by
            rw [List.any_eq_false]
            intro x hx hp
            have : avail.find? (fun p => decide (p.id = priorityId)) ≠ none := by
              rw [ne_eq, List.find?_eq_none]
              push_neg
              exact ⟨x, hx, hp⟩
            exact this hf
          rw [show priorityScan (priorityId :: rest) avail =
              (match avail.find? (fun p => decide (p.id = priorityId)) with
               | some p => some p
               | none => priorityScan rest avail) from rfl, hf,
            List.find?_cons_of_neg _ (by simpa using hany)]
          exact ih avail

/-- C8: PriorityStrategy.selectProvider returns, among the available input
providers, the one whose id matches the earliest entry of the priority
list; if no available id appears in the list it returns the first
available provider in input order; and it returns none exactly when the
input has no available provider. With available [A, B, C] and priority
list [C, A] it returns C. -/
theorem claim_C8 :
    (∀ (s : PriorityStrategy) (providers : List Provider),
       s.selectProvider providers =
         (match s.priorityOrder.find?
             (fun pid => (availableOf providers).any (fun p => p.id = pid)) with
          | some pid => (availableOf providers).find? (fun p => p.id = pid)
          | none => (availableOf providers).head?)) ∧
    (∀ (s : PriorityStrategy) (providers : List Provider),
       s.selectProvider providers = none ↔ availableOf providers = []) ∧
    PriorityStrategy.selectProvider { priorityOrder := ["c", "a"] }
      [providerA, providerB, providerC] = some providerC := by
  have hmain : ∀ (s : PriorityStrategy) (providers : List Provider),
      s.selectProvider providers =
        (match s.priorityOrder.find?
            (fun pid => (availableOf providers).any (fun p => p.id = pid)) with
         | some pid => (availableOf providers).find? (fun p => p.id = pid)
         | none => (availableOf providers).head?) := by
    intro s providers
    simp only [PriorityStrategy.selectProvider]
    by_cases hav : (availableOf providers).length = 0
    · have hempty : availableOf providers = [] := List.length_eq_zero.mp hav
      have hford : s.priorityOrder.find?
          (fun pid => (availableOf providers).any (fun p => decide (p.id = pid))) = none := by
        rw [List.find?_eq_none]
        intro x _
        simp [hempty]
      rw [hford]
      simp [hav, hempty]
    · rw [if_neg hav, priorityScan_eq_spec]
      cases hford : s.priorityOrder.find?
          (fun pid => (availableOf providers).any (fun p => decide (p.id = pid))) with
      | some pid =>
          have hpid : (availableOf providers).any (fun p => decide (p.id = pid)) = true := by
            simpa using List.find?_some hford
          obtain ⟨x, hxm, hxp⟩ := List.any_eq_true.mp hpid
          cases hfa : (availableOf providers).find? (fun p => decide (p.id = pid)) with
          | some q => simp [hav, hford, hfa]
          | none =>
              exfalso
              have := List.find?_eq_none.mp hfa x hxm
              exact this hxp
      | none => simp [hav, hford]
  refine ⟨hmain, ?_, by decide⟩
  intro s providers
  constructor
  · intro hnone
    by_contra hne
    have hlen : (availableOf providers).length ≠ 0 := fun h0 => hne (List.length_eq_zero.mp h0)
    rw [hmain] at hnone
    rcases hford : s.priorityOrder.find?
        (fun pid => (availableOf providers).any (fun p => decide (p.id = pid))) with _ | pid
    · rw [hford] at hnone
      simp only at hnone
      rw [List.head?_eq_none_iff] at hnone
      exact hne hnone
    · rw [hford] at hnone
      simp only at hnone
      have hpid : (availableOf providers).any (fun p => decide (p.id = pid)) = true := by
        simpa using List.find?_some hford
      obtain ⟨x, hxm, hxp⟩ := List.any_eq_true.mp hpid
      have := List.find?_eq_none.mp hnone x hxm
      exact this hxp
  · intro hempty
    rw [hmain]
    have hford : s.priorityOrder.find?
        (fun pid => (availableOf providers).any (fun p => decide (p.id = pid))) = none := by
      rw [List.find?_eq_none]
      intro x _
      simp [hempty]
    rw [hford]
    simp [hempty]

/-! ## C9: the round-robin strategy -/

theorem mod_succ_ne (c n : Nat) (hn : 2 ≤ n) : c % n ≠ (c + 1) % n := by
  have h1 : (c + 1) % n = (c % n + 1) % n := by
    conv_lhs => rw [Nat.add_mod]
    rw [Nat.mod_eq_of_lt (show 1 < n by omega)]
  intro he
  have hr : c % n < n := Nat.mod_lt _ (by omega)
  by_cases hlt : c % n + 1 < n
  · rw [h1, Nat.mod_eq_of_lt hlt] at he
    omega
  · have hEq : c % n + 1 = n := by omega
    rw [h1, hEq, Nat.mod_self] at he
    omega

/-- C9: on a list of available providers with distinct ids and at least 2
members, two consecutive RoundRobinStrategy.selectProvider calls with the
same list return different provider ids: the first call returns
available[cursor % length] and advances the shared cursor to
(cursor + 1) % length, so the second call reads a different position. -/
theorem claim_C9 :
    ∀ (s : RoundRobinStrategy) (providers : List Provider),
      (∀ p ∈ providers, p.status = ProviderStatus.available) →
      (providers.map (fun p => p.id)).Nodup →
      2 ≤ providers.length →
      ∃ p q,
        (s.selectProvider providers).1 = some p ∧
        ((s.selectProvider providers).2.selectProvider providers).1 = some q ∧
        (s.selectProvider providers).1 =
          (availableOf providers).get? (s.currentIndex % (availableOf providers).length) ∧
        (s.selectProvider providers).2.currentIndex =
          (s.currentIndex + 1) % (availableOf providers).length ∧
        p.id ≠ q.id := by
  intro s providers hall hnd hlen
  have hfilter : availableOf providers = providers := by
    unfold availableOf
    rw [List.filter_eq_self]
    intro a ha
    simpa using hall a ha
  have hn0 : ¬providers.length = 0 := by omega
  have hi1 : s.currentIndex % providers.length < providers.length :=
    Nat.mod_lt _ (by omega)
  have hi2 : (s.currentIndex + 1) % providers.length < providers.length :=
    Nat.mod_lt _ (by omega)
  have h1 : s.selectProvider providers =
      (providers.get? (s.currentIndex % providers.length),
       { currentIndex := (s.currentIndex + 1) % providers.length }) := by
    simp only [RoundRobinStrategy.selectProvider, hfilter]
    rw [if_neg hn0]
  have h2 : RoundRobinStrategy.selectProvider
      { currentIndex := (s.currentIndex + 1) % providers.length } providers =
      (providers.get? ((s.currentIndex + 1) % providers.length),
       { currentIndex := ((s.currentIndex + 1) % providers.length + 1) % providers.length }) := by
    simp only [RoundRobinStrategy.selectProvider, hfilter]
    rw [if_neg hn0, Nat.mod_eq_of_lt hi2]
  refine ⟨providers.get ⟨_, hi1⟩, providers.get ⟨_, hi2⟩, ?_, ?_, ?_, ?_, ?_⟩
  · rw [h1, List.get?_eq_get hi1]
  · rw [h1, h2, List.get?_eq_get hi2]
  · rw [h1, hfilter]
  · rw [h1, hfilter]
  · intro hid
    have hmap : (providers.map (fun p => p.id)).get
          ⟨s.currentIndex % providers.length, by simpa using hi1⟩ =
        (providers.map (fun p => p.id)).get
          ⟨(s.currentIndex + 1) % providers.length, by simpa using hi2⟩ := by
      simpa [List.getElem_map] using hid
    have := (List.Nodup.get_inj_iff hnd).mp hmap
    have hne := mod_succ_ne s.currentIndex providers.length hlen
    exact hne (by simpa using congrArg Fin.val this)

/-- Witness for C9: the cursor-0 strategy on the two-provider list. -/
theorem claim_C9_witness :
    ∃ p q,
      (RoundRobinStrategy.selectProvider { currentIndex := 0 }
        [providerA, providerB]).1 = some p ∧
      ((RoundRobinStrategy.selectProvider { currentIndex := 0 }
          [providerA, providerB]).2.selectProvider [providerA, providerB]).1 = some q ∧
      (RoundRobinStrategy.selectProvider { currentIndex := 0 } [providerA, providerB]).1 =
        (availableOf [providerA, providerB]).get?
          (0 % (availableOf [providerA, providerB]).length) ∧
      (RoundRobinStrategy.selectProvider { currentIndex := 0 }
          [providerA, providerB]).2.currentIndex =
        (0 + 1) % (availableOf [providerA, providerB]).length ∧
      p.id ≠ q.id :=
  claim_C9 { currentIndex := 0 } [providerA, providerB] (by decide) (by decide) (by decide)

/-! ## C5: the roster cache -/

/-- C5 (amended): when the cache is non-empty and unexpired, a call returns
the cached roster unchanged and attempts no fetch; once the TTL has
expired the call attempts exactly one fetch (the embedding performs at most
one fetch per call by construction); a successful fetch stores the mapped
roster with expiry set to the fetch time plus the fixed 5-minute TTL and
returns exactly the stored cache; but a call finding an EMPTY cache always
attempts a fetch, even when within the TTL window — the non-empty check is
part of the cache guard, so an empty roster stored by a successful fetch is
never served from cache. -/
theorem claim_C5 :
    (∀ (st : G4FServiceCache) (now : Nat) (fetch : FetchOutcome),
       0 < st.providersCache.length → now < st.cacheExpiry →
       st.getAvailableProviders now fetch = (st.providersCache, st, false)) ∧
    (∀ (st : G4FServiceCache) (now : Nat) (fetch : FetchOutcome),
       st.cacheExpiry ≤ now → (st.getAvailableProviders now fetch).2.2 = true) ∧
    (∀ (st : G4FServiceCache) (now : Nat) (ps : List RemoteProvider),
       ¬(0 < st.providersCache.length ∧ now < st.cacheExpiry) →
       (st.getAvailableProviders now (FetchOutcome.resolvedSuccess ps)).2.1.cacheExpiry =
           now + cacheTTL ∧
       (st.getAvailableProviders now (FetchOutcome.resolvedSuccess ps)).2.1.providersCache =
           ps.map (fun p =>
             { id := p.id, name := p.name, status := mapProviderStatus p.status,
               lastChecked := p.lastChecked, model := p.model : Provider }) ∧
       (st.getAvailableProviders now (FetchOutcome.resolvedSuccess ps)).1 =
           (st.getAvailableProviders now (FetchOutcome.resolvedSuccess ps)).2.1.providersCache) ∧
    (∀ (st : G4FServiceCache) (now : Nat) (fetch : FetchOutcome),
       st.providersCache.length = 0 → (st.getAvailableProviders now fetch).2.2 = true) := by
  refine ⟨?_, ?_, ?_, ?_⟩
  · intro st now fetch h1 h2
    unfold G4FServiceCache.getAvailableProviders
    rw [if_pos ⟨h1, h2⟩]
  · intro st now fetch hexp
    unfold G4FServiceCache.getAvailableProviders
    rw [if_neg (by omega)]
    cases fetch <;> by_cases hc : 0 < st.providersCache.length <;> simp [hc]
  · intro st now ps hguard
    unfold G4FServiceCache.getAvailableProviders
    rw [if_neg hguard]
    exact ⟨rfl, rfl, rfl⟩
  · intro st now fetch hempty
    unfold G4FServiceCache.getAvailableProviders
    rw [if_neg (by omega)]
    cases fetch <;> by_cases hc : 0 < st.providersCache.length <;> simp [hc]

/-- Counterexample to C5 as stated: a successful fetch whose roster is
empty sets the expiry 5 minutes ahead, yet the next call at time 1 (well
within the TTL) still attempts a fetch, because the cache guard also
requires a non-empty cache. -/
theorem claim_C5_counterexample :
    (freshCache.getAvailableProviders 0 (FetchOutcome.resolvedSuccess [])).1 = [] ∧
    cacheAfterEmptyFetch.cacheExpiry = 300000 ∧
    1 < cacheAfterEmptyFetch.cacheExpiry ∧
    (cacheAfterEmptyFetch.getAvailableProviders 1 FetchOutcome.rejected).2.2 = true := by
  decide

/-- Witness for C5: a non-empty unexpired cache is served without a fetch,
and an expired cache triggers a fetch attempt. -/
theorem claim_C5_witness :
    ({ providersCache := [providerA], cacheExpiry := 100 } : G4FServiceCache).getAvailableProviders
        5 FetchOutcome.rejected =
      ([providerA], { providersCache := [providerA], cacheExpiry := 100 }, false) ∧
    (({ providersCache := [providerA], cacheExpiry := 100 } :
        G4FServiceCache).getAvailableProviders 100 FetchOutcome.rejected).2.2 = true :=
  ⟨claim_C5.1 _ 5 _ (by decide) (by decide), claim_C5.2.1 _ 100 _ (by decide)⟩

/-! ## C4 and C6: the dispatch retry loop -/

theorem sendLoop_attempts_bounds (o : Nat → AttemptOutcome) :
    ∀ (remaining attempt : Nat) (le : Option JsError),
      attempt - 1 ≤ (sendLoop o remaining attempt le).2 ∧
      (1 ≤ remaining → attempt ≤ (sendLoop o remaining attempt le).2) ∧
      (sendLoop o remaining attempt le).2 ≤ attempt - 1 + remaining := by
  intro remaining
  induction remaining with
  | zero =>
      intro attempt le
      simp [sendLoop]
  | succ r ih =>
      intro attempt le
      unfold sendLoop
      cases ho : o attempt with
      | resolved body =>
          by_cases hb : body.success = true
          · simp [hb]
            omega
          · by_cases h1 : (isRateLimitError (errorFromBody body.error) &&
                decide (attempt < maxRetries)) = true
            · have h := ih (attempt + 1) (some (errorFromBody body.error))
              simp [hb, h1]
              omega
            · by_cases h2 : (isConnectionError (errorFromBody body.error) &&
                  decide (attempt < maxRetries)) = true
              · have h := ih (attempt + 1) (some (errorFromBody body.error))
                simp [hb, h1, h2]
                omega
              · simp [hb, h1, h2]
                omega
      | rejected e =>
          by_cases h1 : (isRateLimitError e && decide (attempt < maxRetries)) = true
          · have h := ih (attempt + 1) (some e)
            simp [h1]
            omega
          · by_cases h2 : (isConnectionError e && decide (attempt < maxRetries)) = true
            · have h := ih (attempt + 1) (some e)
              simp [h1, h2]
              omega
            · simp [h1, h2]
              omega

theorem sendLoop_retried (o : Nat → AttemptOutcome) :
    ∀ (remaining attempt : Nat) (le : Option JsError) (k : Nat),
      attempt ≤ k → k < (sendLoop o remaining attempt le).2 →
      ∃ e, attemptError (o k) = some e ∧ (isRateLimitError e || isConnectionError e) = true := by
  intro remaining
  induction remaining with
  | zero =>
      intro attempt le k h1 h2
      simp [sendLoop] at h2
      omega
  | succ r ih =>
      intro attempt le k h1 h2
      unfold sendLoop at h2
      cases ho : o attempt with
      | resolved body =>
          rw [ho] at h2
          by_cases hb : body.success = true
          · simp [hb] at h2
            omega
          · by_cases hc1 : (isRateLimitError (errorFromBody body.error) &&
                decide (attempt < maxRetries)) = true
            · simp only [hb, if_neg, Bool.false_eq_true, if_false, hc1, if_true] at h2
              by_cases hk : k = attempt
              · subst hk
                refine ⟨errorFromBody body.error, by simp [attemptError, ho, hb], ?_⟩
                have hx := hc1
                rw [Bool.and_eq_true] at hx
                simp [hx.1]
              · exact ih (attempt + 1) _ k (by omega) h2
            · by_cases hc2 : (isConnectionError (errorFromBody body.error) &&
                  decide (attempt < maxRetries)) = true
              · simp only [hb, Bool.false_eq_true, if_false, hc1, hc2, if_true] at h2
                by_cases hk : k = attempt
                · subst hk
                  refine ⟨errorFromBody body.error, by simp [attemptError, ho, hb], ?_⟩
                  have hx := hc2
                  rw [Bool.and_eq_true] at hx
                  simp [hx.1]
                · exact ih (attempt + 1) _ k (by omega) h2
              · simp [hb, hc1, hc2] at h2
                omega
      | rejected e =>
          rw [ho] at h2
          by_cases hc1 : (isRateLimitError e && decide (attempt < maxRetries)) = true
          · simp only [hc1, if_true] at h2
            by_cases hk : k = attempt
            · subst hk
              refine ⟨e, by simp [attemptError, ho], ?_⟩
              have hx := hc1
              rw [Bool.and_eq_true] at hx
              simp [hx.1]
            · exact ih (attempt + 1) _ k (by omega) h2
          · by_cases hc2 : (isConnectionError e && decide (attempt < maxRetries)) = true
            · simp only [hc1, Bool.false_eq_true, if_false, hc2, if_true] at h2
              by_cases hk : k = attempt
              · subst hk
                refine ⟨e, by simp [attemptError, ho], ?_⟩
                have hx := hc2
                rw [Bool.and_eq_true] at hx
                simp [hx.1]
              · exact ih (attempt + 1) _ k (by omega) h2
            · simp [hc1, hc2] at h2
              omega

theorem sendLoop_step_retry (o : Nat → AttemptOutcome) (r attempt : Nat)
    (le : Option JsError) (e : JsError)
    (he : attemptError (o attempt) = some e)
    (hr : (isRateLimitError e || isConnectionError e) = true)
    (hlt : attempt < maxRetries) :
    sendLoop o (r + 1) attempt le = sendLoop o r (attempt + 1) (some e) := by
  conv_lhs => rw [sendLoop]
  cases ho : o attempt with
  | resolved body =>
      rw [ho] at he
      by_cases hb : body.success = true
      · simp [attemptError, hb] at he
      · simp [attemptError, hb] at he
        subst he
        rcases Bool.or_eq_true_iff.mp hr with h | h
        · simp [hb, h, hlt]
        · by_cases h1 : isRateLimitError (errorFromBody body.error) = true
          · simp [hb, h1, hlt]
          · simp [hb, h1, h, hlt]
  | rejected e2 =>
      rw [ho] at he
      simp [attemptError] at he
      subst he
      rcases Bool.or_eq_true_iff.mp hr with h | h
      · simp [h, hlt]
      · by_cases h1 : isRateLimitError e2 = true
        · simp [h1, hlt]
        · simp [h1, h, hlt]

theorem sendLoop_step_success (o : Nat → AttemptOutcome) (r attempt : Nat)
    (le : Option JsError) (body : G4FResponse)
    (ho : o attempt = AttemptOutcome.resolved body) (hb : body.success = true) :
    sendLoop o (r + 1) attempt le = (LoopExit.success body, attempt) := by
  unfold sendLoop
  rw [ho]
  simp [hb]

theorem sendLoop_step_break (o : Nat → AttemptOutcome) (r attempt : Nat)
    (le : Option JsError) (e : JsError)
    (he : attemptError (o attempt) = some e)
    (hr : isRateLimitError e = false) (hc : isConnectionError e = false) :
    sendLoop o (r + 1) attempt le = (LoopExit.failure (some e), attempt) := by
  unfold sendLoop
  cases ho : o attempt with
  | resolved body =>
      rw [ho] at he
      by_cases hb : body.success = true
      · simp [attemptError, hb] at he
      · simp [attemptError, hb] at he
        subst he
        simp [hb, hr, hc]
  | rejected e2 =>
      rw [ho] at he
      simp [attemptError] at he
      subst he
      simp [hr, hc]

theorem sendToProvider_attempts (o : Nat → AttemptOutcome) (prov : Option String)
    (ts : String) :
    (sendToProvider o prov ts).2 = (sendLoop o maxRetries 1 none).2 := by
  unfold sendToProvider
  rcases h : sendLoop o maxRetries 1 none with ⟨exit, n⟩
  cases exit <;> simp

theorem sendLoop_success_src (o : Nat → AttemptOutcome) :
    ∀ (remaining attempt : Nat) (le : Option JsError) (body : G4FResponse) (n : Nat),
      sendLoop o remaining attempt le = (LoopExit.success body, n) →
      attempt ≤ n ∧ n ≤ attempt + remaining - 1 ∧
        o n = AttemptOutcome.resolved body ∧ body.success = true := by
  intro remaining
  induction remaining with
  | zero =>
      intro attempt le body n h
      simp [sendLoop] at h
  | succ r ih =>
      intro attempt le body n h
      unfold sendLoop at h
      cases ho : o attempt with
      | resolved b =>
          rw [ho] at h
          by_cases hb : b.success = true
          · simp [hb] at h
            obtain ⟨rfl, rfl⟩ := h
            exact ⟨le_refl _, by omega, by rw [ho], hb⟩
          · by_cases hc1 : (isRateLimitError (errorFromBody b.error) &&
                decide (attempt < maxRetries)) = true
            · simp only [hb, Bool.false_eq_true, if_false, hc1, if_true] at h
              have := ih (attempt + 1) _ body n h
              exact ⟨by omega, by omega, this.2.2.1, this.2.2.2⟩
            · by_cases hc2 : (isConnectionError (errorFromBody b.error) &&
                  decide (attempt < maxRetries)) = true
              · simp only [hb, Bool.false_eq_true, if_false, hc1, hc2, if_true] at h
                have := ih (attempt + 1) _ body n h
                exact ⟨by omega, by omega, this.2.2.1, this.2.2.2⟩
              · simp [hb, hc1, hc2] at h
      | rejected e =>
          rw [ho] at h
          by_cases hc1 : (isRateLimitError e && decide (attempt < maxRetries)) = true
          · simp only [hc1, if_true] at h
            have := ih (attempt + 1) _ body n h
            exact ⟨by omega, by omega, this.2.2.1, this.2.2.2⟩
          · by_cases hc2 : (isConnectionError e && decide (attempt < maxRetries)) = true
            · simp only [hc1, Bool.false_eq_true, if_false, hc2, if_true] at h
              have := ih (attempt + 1) _ body n h
              exact ⟨by omega, by omega, this.2.2.1, this.2.2.2⟩
            · simp [hc1, hc2] at h

/-- C4: sendToProvider performs between 1 and 3 underlying attempts; an
attempt is followed by another one only when its failure classifies as
rate-limited or as a connection failure; two rate-limit failures followed
by a remote success yield that success body with exactly 3 attempts; and a
first-attempt failure that is neither rate-limited nor a connection
failure yields a failure result after exactly 1 attempt. -/
theorem claim_C4 :
    (∀ (o : Nat → AttemptOutcome) (prov : Option String) (ts : String),
       1 ≤ (sendToProvider o prov ts).2 ∧ (sendToProvider o prov ts).2 ≤ 3) ∧
    (∀ (o : Nat → AttemptOutcome) (prov : Option String) (ts : String) (k : Nat),
       1 ≤ k → k < (sendToProvider o prov ts).2 →
       ∃ e, attemptError (o k) = some e ∧ (isRateLimitError e || isConnectionError e) = true) ∧
    (∀ (o : Nat → AttemptOutcome) (prov : Option String) (ts : String)
       (e1 e2 : JsError) (body : G4FResponse),
       attemptError (o 1) = some e1 → isRateLimitError e1 = true →
       attemptError (o 2) = some e2 → isRateLimitError e2 = true →
       o 3 = AttemptOutcome.resolved body → body.success = true →
       sendToProvider o prov ts = (body, 3)) ∧
    (∀ (o : Nat → AttemptOutcome) (prov : Option String) (ts : String) (e : JsError),
       attemptError (o 1) = some e →
       isRateLimitError e = false → isConnectionError e = false →
       (sendToProvider o prov ts).2 = 1 ∧ (sendToProvider o prov ts).1.success = false) := by
  refine ⟨?_, ?_, ?_, ?_⟩
  · intro o prov ts
    have h := sendLoop_attempts_bounds o maxRetries 1 none
    rw [sendToProvider_attempts]
    refine ⟨h.2.1 (by decide), ?_⟩
    have hb := h.2.2
    simpa [maxRetries] using hb
  · intro o prov ts k h1 h2
    rw [sendToProvider_attempts] at h2
    exact sendLoop_retried o maxRetries 1 none k h1 h2
  · intro o prov ts e1 e2 body he1 hr1 he2 hr2 ho3 hb
    have hstep1 : sendLoop o 3 1 none = sendLoop o 2 2 (some e1) :=
      sendLoop_step_retry o 2 1 none e1 he1 (by simp [hr1]) (by decide)
    have hstep2 : sendLoop o 2 2 (some e1) = sendLoop o 1 3 (some e2) :=
      sendLoop_step_retry o 1 2 (some e1) e2 he2 (by simp [hr2]) (by decide)
    have hstep3 : sendLoop o 1 3 (some e2) = (LoopExit.success body, 3) :=
      sendLoop_step_success o 0 3 (some e2) body ho3 hb
    unfold sendToProvider
    rw [show maxRetries = 3 from rfl, hstep1, hstep2, hstep3]
  · intro o prov ts e he hr hc
    have hstep : sendLoop o 3 1 none = (LoopExit.failure (some e), 1) :=
      sendLoop_step_break o 2 1 none e he hr hc
    unfold sendToProvider
    rw [show maxRetries = 3 from rfl, hstep]
    exact ⟨rfl, rfl⟩

/-- Witness for C4: the two-429-then-success outcome run and the
non-retryable bad-request run. -/
theorem claim_C4_witness :
    sendToProvider outcomesRetryTwice (some "bing") "ts" = (okBody, 3) ∧
    (sendToProvider outcomesTerminal (some "bing") "ts").2 = 1 ∧
    (sendToProvider outcomesTerminal (some "bing") "ts").1.success = false := by
  refine ⟨?_, ?_, ?_⟩
  · exact claim_C4.2.2.1 outcomesRetryTwice (some "bing") "ts" rateLimited429 rateLimited429
      okBody (by decide) (by decide) (by decide) (by decide) (by decide) (by decide)
  · exact (claim_C4.2.2.2 outcomesTerminal (some "bing") "ts"
      (errorFromBody (some "bad request")) (by decide) (by decide) (by decide)).1
  · exact (claim_C4.2.2.2 outcomesTerminal (some "bing") "ts"
      (errorFromBody (some "bad request")) (by decide) (by decide) (by decide)).2

/-- C6: sendToProvider always produces a discriminated result (it is a
total function of the attempt outcomes, so nothing escapes to the caller):
either the successful remote body of one of the at most 3 attempts, or a
failure record carrying the provider, the timestamp and an error string
produced by getErrorMessage; getErrorMessage prefers the response body
error field, then the error message, then the generic fallback, and the
thrown body-failure error carries the body error field (or the generic
body fallback) as its message. -/
theorem claim_C6 :
    (∀ (o : Nat → AttemptOutcome) (prov : Option String) (ts : String),
       ((sendToProvider o prov ts).1.success = true ∧
          ∃ k, 1 ≤ k ∧ k ≤ 3 ∧ o k = AttemptOutcome.resolved (sendToProvider o prov ts).1) ∨
       ((sendToProvider o prov ts).1.success = false ∧
          (sendToProvider o prov ts).1.provider = prov ∧
          (sendToProvider o prov ts).1.timestamp = some ts ∧
          ∃ e, (sendToProvider o prov ts).1.error = some (getErrorMessage e))) ∧
    (∀ e : JsError,
       (jsTruthy e.responseDataError = true →
          getErrorMessage e = e.responseDataError.getD "") ∧
       (jsTruthy e.responseDataError = false → jsTruthy e.message = true →
          getErrorMessage e = e.message.getD "") ∧
       (jsTruthy e.responseDataError = false → jsTruthy e.message = false →
          getErrorMessage e = "Unknown error occurred")) ∧
    (∀ be : Option String,
       getErrorMessage (errorFromBody be) = jsOr be "Unknown error from G4F service") := by
  refine ⟨?_, ?_, ?_⟩
  · intro o prov ts
    unfold sendToProvider
    rcases h : sendLoop o maxRetries 1 none with ⟨exit, n⟩
    cases exit with
    | success body =>
        left
        have hsrc := sendLoop_success_src o maxRetries 1 none body n h
        have hup : n ≤ 3 := by
          have := hsrc.2.1
          simpa [maxRetries] using this
        simp only []
        exact ⟨hsrc.2.2.2, n, hsrc.1, hup, hsrc.2.2.1⟩
    | failure le =>
        right
        refine ⟨rfl, rfl, rfl, ?_⟩
        cases le with
        | some e => exact ⟨e, rfl⟩
        | none =>
            exact ⟨{ message := none, code := none, responseStatus := none,
                     responseDataError := none }, rfl⟩
  · intro e
    refine ⟨?_, ?_, ?_⟩
    · intro h1
      unfold getErrorMessage
      rw [if_pos h1]
    · intro h1 h2
      unfold getErrorMessage
      rw [if_neg (by simp [h1]), if_pos h2]
    · intro h1 h2
      unfold getErrorMessage
      rw [if_neg (by simp [h1]), if_neg (by simp [h2])]
  · intro be
    have hne : jsOr be "Unknown error from G4F service" ≠ "" := by
      unfold jsOr
      by_cases hb : jsTruthy be = true
      · rw [if_pos hb]
        cases be with
        | none => simp [jsTruthy] at hb
        | some s => simpa [jsTruthy] using hb
      · rw [if_neg hb]
        decide
    unfold getErrorMessage errorFromBody
    simp [jsTruthy, hne]

/-- Witness for C6: the three priority levels of getErrorMessage at
concrete errors. -/
theorem claim_C6_witness :
    getErrorMessage { message := some "socket hang up", code := none, responseStatus := none,
                      responseDataError := some "server overloaded" } = "server overloaded" ∧
    getErrorMessage { message := some "socket hang up", code := none, responseStatus := none,
                      responseDataError := none } = "socket hang up" ∧
    getErrorMessage { message := none, code := none, responseStatus := none,
                      responseDataError := none } = "Unknown error occurred" := by
  refine ⟨?_, ?_, ?_⟩
  · simpa using (claim_C6.2.1 _).1 (by decide)
  · simpa using (claim_C6.2.1 _).2.1 (by decide) (by decide)
  · exact (claim_C6.2.1 _).2.2 (by decide) (by decide)
